import Mathlib

/-!
Verification of the ledger-backed traceability core of the green-olive
waste backend.

The development shallowly embeds three parts of the repository:

1. the enhanced Fabric chaincode (Go, SmartContract over Waste,
   Extraction, Recycling records with embedded history), in namespace
   Enhanced;
2. the basic chaincode (waste.go, the French variant with input
   validation), in namespace Basic;
3. the Express controllers with their local-mirror fallback policy and
   the mock blockchain client exported by the enhanced-client module,
   in namespaces WasteCtrl, ExtractionCtrl and Mock.

Conventions of the embedding:
- the ledger world state is an association list from keys to stored
  values, kept sorted by key so that range scans enumerate entries in
  lexicographic key order, as the GetStateByRange of Fabric does;
- every chaincode operation takes the world state and returns the Go
  error value paired with the resulting world state; an error leaves
  the state unchanged exactly where the Go code returns before any
  PutState call;
- calls to time.Now().Format(...) are modelled by an explicit now
  argument threaded into each operation;
- Go float64 quantities are modelled as Int and the %.2f formatting in
  detail strings as toString: no claim inspects the numeric formatting;
- json.Marshal never fails on these structs and json.Unmarshal of a
  value of the wrong shape cannot arise under the key namespacing
  discipline; the unmarshal-failure branches of the Go loops are
  modelled as skipping entries whose stored value has the wrong shape.
-/

/-- One history event of an entity, as in the Go History struct. -/
structure HistoryEvent where
  Timestamp : String
  Action : String
  Actor : String
  Details : String
deriving Repr, DecidableEq

/-- The Waste record of the enhanced chaincode. The Go field Type is
spelled Type2 because Type is a Lean keyword. -/
structure Waste where
  ID : String
  Type2 : String
  Quantity : Int
  HarvestDate : String
  Status : String
  Owner : String
  Farm : String
  Location : String
  CreatedAt : String
  UpdatedAt : String
  History : List HistoryEvent
deriving Repr, DecidableEq

/-- The Extraction record of the enhanced chaincode. -/
structure Extraction where
  ID : String
  WasteID : String
  ProductType : String
  Quantity : Int
  Quality : String
  ExtractionDate : String
  Processor : String
  Status : String
  CreatedAt : String
  History : List HistoryEvent
deriving Repr, DecidableEq

/-- The Recycling record of the enhanced chaincode. -/
structure Recycling where
  ID : String
  WasteID : String
  RecycledProduct : String
  Quantity : Int
  Method : String
  RecyclingDate : String
  Recycler : String
  Status : String
  CreatedAt : String
  History : List HistoryEvent
deriving Repr, DecidableEq

/-- A value stored in the key-value world state of the ledger: the three
entity types share one key space, namespaced by the key prefix. -/
inductive StoreVal where
  | wasteV (w : Waste)
  | extrV (e : Extraction)
  | recV (r : Recycling)
deriving Repr, DecidableEq

/-- The ledger world state: an association list from keys to stored
values, kept sorted by key by putState so that range scans enumerate
in lexicographic key order as Fabric does. -/
abbrev World := List (String × StoreVal)

/-- Lexicographic code-point order on strings, as Fabric orders keys.
Defined by explicit recursion so that concrete worlds evaluate inside
proofs. -/
def strLtB : List Char → List Char → Bool
  | [], [] => false
  | [], _ :: _ => true
  | _ :: _, [] => false
  | a :: as, b :: bs =>
    if a.toNat < b.toNat then true
    else if b.toNat < a.toNat then false
    else strLtB as bs

/-- Key order used by the store. -/
def keyLt (a b : String) : Bool := strLtB a.data b.data

/-- GetState: the value stored under a key, if any. -/
def getState : World → String → Option StoreVal
  | [], _ => none
  | (k, v) :: rest, key => if key == k then some v else getState rest key

/-- PutState: write a value under a key, replacing any previous value
and keeping the association list sorted by key. -/
def putState : World → String → StoreVal → World
  | [], key, v => [(key, v)]
  | (k, w) :: rest, key, v =>
    if key == k then (key, v) :: rest
    else if keyLt key k then (key, v) :: (k, w) :: rest
    else (k, w) :: putState rest key v

/-- GetStateByRange: all entries whose key lies in the half-open range
from startKey (inclusive) to endKey (exclusive), in store order.
startKey is at most the key precisely when the key is not below it. -/
def getStateByRange (st : World) (startKey endKey : String) : World :=
  st.filter (fun kv => !(keyLt kv.1 startKey) && keyLt kv.1 endKey)

namespace Enhanced

/-- WasteExists of the enhanced chaincode: whether any value is stored
under the namespaced waste key. -/
def WasteExists (st : World) (id : String) : Bool :=
  (getState st ("WASTE_" ++ id)).isSome

/-- ReadWaste of the enhanced chaincode: fetch and unmarshal the waste
stored under WASTE_ id; a missing key is the does-not-exist error. -/
def ReadWaste (st : World) (id : String) : Except String Waste :=
  match getState st ("WASTE_" ++ id) with
  | none => .error ("waste " ++ id ++ " does not exist")
  | some (.wasteV w) => .ok w
  | some _ => .error ("failed to unmarshal waste " ++ id)

/-- CreateWaste of the enhanced chaincode: reject a duplicate id, else
store a new waste with status COLLECTED and a single CREATED event.
Note that no validation at all is performed on the quantity. -/
def CreateWaste (st : World) (id wasteType : String) (quantity : Int)
    (harvestDate owner farm location now : String) :
    Except String Unit × World :=
  if WasteExists st id then
    (.error ("waste " ++ id ++ " already exists"), st)
  else
    let waste : Waste :=
      { ID := id, Type2 := wasteType, Quantity := quantity,
        HarvestDate := harvestDate, Status := "COLLECTED", Owner := owner,
        Farm := farm, Location := location, CreatedAt := now,
        UpdatedAt := now,
        History := [{ Timestamp := now, Action := "CREATED", Actor := owner,
                      Details := "Waste collected: " ++ wasteType ++
                                 ", Quantity: " ++ toString quantity }] }
    (.ok (), putState st ("WASTE_" ++ id) (.wasteV waste))

/-- The STATUS_CHANGED event appended by UpdateWasteStatus. -/
def statusEvent (oldStatus newStatus actor details now : String) :
    HistoryEvent :=
  { Timestamp := now, Action := "STATUS_CHANGED", Actor := actor,
    Details := "Status changed from " ++ oldStatus ++ " to " ++ newStatus ++
               ". " ++ details }

/-- UpdateWasteStatus of the enhanced chaincode: read the waste, set the
new status and updated-at, append one STATUS_CHANGED event, rewrite. -/
def UpdateWasteStatus (st : World) (id newStatus actor details now : String) :
    Except String Unit × World :=
  match ReadWaste st id with
  | .error e => (.error e, st)
  | .ok waste =>
    let updated : Waste :=
      { waste with
          Status := newStatus, UpdatedAt := now,
          History := waste.History ++
            [statusEvent waste.Status newStatus actor details now] }
    (.ok (), putState st ("WASTE_" ++ id) (.wasteV updated))

/-- CreateExtraction of the enhanced chaincode: the referenced waste
must exist, the extraction id must be fresh; then the extraction is
stored with a single EXTRACTED event and the waste status is updated
to PROCESSED. -/
def CreateExtraction (st : World) (id wasteId productType : String)
    (quantity : Int) (quality processor now : String) :
    Except String Unit × World :=
  match ReadWaste st wasteId with
  | .error e => (.error ("source waste not found: " ++ e), st)
  | .ok _ =>
    match getState st ("EXTRACTION_" ++ id) with
    | some _ => (.error ("extraction " ++ id ++ " already exists"), st)
    | none =>
      let extraction : Extraction :=
        { ID := id, WasteID := wasteId, ProductType := productType,
          Quantity := quantity, Quality := quality, ExtractionDate := now,
          Processor := processor, Status := "PROCESSED", CreatedAt := now,
          History := [{ Timestamp := now, Action := "EXTRACTED",
                        Actor := processor,
                        Details := "Extracted " ++ productType ++ " (" ++
                                   toString quantity ++ " units) from waste " ++
                                   wasteId }] }
      let st1 := putState st ("EXTRACTION_" ++ id) (.extrV extraction)
      UpdateWasteStatus st1 wasteId "PROCESSED" processor
        ("Used for " ++ productType ++ " extraction") now

/-- CreateRecycling of the enhanced chaincode: the referenced waste must
exist, the recycling id must be fresh; then the recycling is stored with
a single RECYCLED event and the waste status is updated to RECYCLED. -/
def CreateRecycling (st : World) (id wasteId recycledProduct : String)
    (quantity : Int) (method recycler now : String) :
    Except String Unit × World :=
  match ReadWaste st wasteId with
  | .error e => (.error ("source waste not found: " ++ e), st)
  | .ok _ =>
    match getState st ("RECYCLING_" ++ id) with
    | some _ => (.error ("recycling " ++ id ++ " already exists"), st)
    | none =>
      let recycling : Recycling :=
        { ID := id, WasteID := wasteId, RecycledProduct := recycledProduct,
          Quantity := quantity, Method := method, RecyclingDate := now,
          Recycler := recycler, Status := "COMPLETED", CreatedAt := now,
          History := [{ Timestamp := now, Action := "RECYCLED",
                        Actor := recycler,
                        Details := "Recycled waste " ++ wasteId ++ " into " ++
                                   recycledProduct ++ " (" ++
                                   toString quantity ++ " units) using " ++
                                   method }] }
      let st1 := putState st ("RECYCLING_" ++ id) (.recV recycling)
      UpdateWasteStatus st1 wasteId "RECYCLED" recycler
        ("Recycled into " ++ recycledProduct ++ " using " ++ method) now

/-- InitLedger of the enhanced chaincode: store the sample waste1 with
status COLLECTED and a single CREATED event. -/
def InitLedger (st : World) (now : String) : Except String Unit × World :=
  let waste : Waste :=
    { ID := "waste1", Type2 := "Olive Branches", Quantity := 50,
      HarvestDate := "2025-06-01", Status := "COLLECTED", Owner := "farmer1",
      Farm := "Olive Farm Alpha", Location := "Andalusia, Spain",
      CreatedAt := now, UpdatedAt := now,
      History := [{ Timestamp := now, Action := "CREATED", Actor := "farmer1",
                    Details := "Initial waste collection" }] }
  (.ok (), putState st ("WASTE_" ++ waste.ID) (.wasteV waste))

/-- The traceability chain assembled by GetTraceability. -/
structure TraceabilityInfo where
  Waste : Option Waste
  Extraction : Option Extraction
  Recycling : Option Recycling
  Chain : List HistoryEvent
deriving Repr, DecidableEq

/-- The loop over the extraction range scan: take the first entry that
unmarshals as an extraction whose waste reference equals wasteId, then
break; entries of the wrong shape are skipped. -/
def findFirstExtraction : List (String × StoreVal) → String → Option Extraction
  | [], _ => none
  | (_, v) :: rest, wasteId =>
    match v with
    | .extrV e =>
      if e.WasteID == wasteId then some e else findFirstExtraction rest wasteId
    | _ => findFirstExtraction rest wasteId

/-- The loop over the recycling range scan, as for extractions. -/
def findFirstRecycling : List (String × StoreVal) → String → Option Recycling
  | [], _ => none
  | (_, v) :: rest, wasteId =>
    match v with
    | .recV r =>
      if r.WasteID == wasteId then some r else findFirstRecycling rest wasteId
    | _ => findFirstRecycling rest wasteId

/-- GetTraceability of the enhanced chaincode: read the waste, start the
chain with its history, append the history of the first matching
extraction found in the extraction key range, then the history of the
first matching recycling. -/
def GetTraceability (st : World) (wasteId : String) :
    Except String TraceabilityInfo :=
  match ReadWaste st wasteId with
  | .error e => .error e
  | .ok waste =>
    let ext := findFirstExtraction
      (getStateByRange st "EXTRACTION_" "EXTRACTION_~") wasteId
    let rec2 := findFirstRecycling
      (getStateByRange st "RECYCLING_" "RECYCLING_~") wasteId
    let chain := waste.History ++
      (match ext with | some e => e.History | none => []) ++
      (match rec2 with | some r => r.History | none => [])
    .ok { Waste := some waste, Extraction := ext, Recycling := rec2,
          Chain := chain }

end Enhanced

namespace Basic

/-- The Waste record of the basic chaincode (waste.go). The Go field
Type is spelled Type2 because Type is a Lean keyword. -/
structure BWaste where
  ID : String
  Type2 : String
  Quantity : Int
  HarvestDate : String
  Status : String
  Owner : String
  CreatedAt : String
  UpdatedAt : String
deriving Repr, DecidableEq

/-- The basic chaincode stores wastes under their raw id (no key
namespacing), again as a key-sorted association list. -/
abbrev BWorld := List (String × BWaste)

/-- GetState for the basic chaincode world. -/
def bGetState : BWorld → String → Option BWaste
  | [], _ => none
  | (k, v) :: rest, key => if key == k then some v else bGetState rest key

/-- PutState for the basic chaincode world, sorted insert by key. -/
def bPutState : BWorld → String → BWaste → BWorld
  | [], key, v => [(key, v)]
  | (k, w) :: rest, key, v =>
    if key == k then (key, v) :: rest
    else if keyLt key k then (key, v) :: (k, w) :: rest
    else (k, w) :: bPutState rest key v

/-- saveWaste of the basic chaincode: marshal and write under the id. -/
def saveWaste (st : BWorld) (waste : BWaste) : BWorld :=
  bPutState st waste.ID waste

/-- strconv.Atoi: an optional sign followed by at least one decimal
digit; anything else is a parse error. -/
def goAtoi (s : String) : Option Int :=
  let (neg, digits) :=
    match s.data with
    | '-' :: rest => (true, rest)
    | '+' :: rest => (false, rest)
    | l => (false, l)
  if digits.isEmpty || !(digits.all Char.isDigit) then none
  else
    let n : Nat := digits.foldl (fun acc c => 10 * acc + (c.toNat - 48)) 0
    some (if neg then -(n : Int) else (n : Int))

/-- CreateWaste of the basic chaincode: reject an empty id, a quantity
that does not parse as a positive integer, a harvest date that fails
time.Parse with layout 2006-01-02 (the parser is an external library
call, modelled by the parseDateOk parameter), and a duplicate id;
otherwise store the new waste. -/
def CreateWaste (parseDateOk : String → Bool) (st : BWorld)
    (id wasteType quantity harvestDate status owner now : String) :
    Except String Unit × BWorld :=
  if id == "" then (.error "ID ne peut pas être vide", st)
  else
    match goAtoi quantity with
    | none => (.error "la quantité doit être un nombre positif", st)
    | some qty =>
      if qty ≤ 0 then (.error "la quantité doit être un nombre positif", st)
      else if !(parseDateOk harvestDate) then
        (.error "format de date invalide (utiliser YYYY-MM-DD)", st)
      else
        match bGetState st id with
        | some _ => (.error ("un déchet avec ID " ++ id ++ " existe déjà"), st)
        | none =>
          (.ok (), saveWaste st
            { ID := id, Type2 := wasteType, Quantity := qty,
              HarvestDate := harvestDate, Status := status, Owner := owner,
              CreatedAt := now, UpdatedAt := now })

/-- InitLedger of the basic chaincode: store the sample waste1, whose
status is READY. -/
def InitLedger (st : BWorld) (now : String) : Except String Unit × BWorld :=
  let waste : BWaste :=
    { ID := "waste1", Type2 := "Olives", Quantity := 50,
      HarvestDate := "2023-10-01", Status := "READY", Owner := "farmer1",
      CreatedAt := now, UpdatedAt := now }
  (.ok (), saveWaste st waste)

end Basic

namespace Mock

/-- The object resolved by the mock submitTransaction of the exported
enhanced-client class. -/
structure MockTx where
  transactionId : String
  result : String
  timestamp : String
deriving Repr, DecidableEq

/-- submitTransaction of the class actually exported by the
enhanced-client module: it logs and resolves a mock object; no code
path throws, so the result is always ok. The Date.now() value and the
ISO timestamp are explicit arguments. -/
def submitTransaction (orgName functionName : String) (args : List String)
    (nowMs : Nat) (nowIso : String) : Except String MockTx :=
  let _ := orgName
  let _ := functionName
  let _ := args
  .ok { transactionId := "mock_tx_" ++ toString nowMs,
        result := "Transaction " ++ functionName ++ " completed successfully",
        timestamp := nowIso }

/-- The shape of a mock query result: the switch in the exported class
returns either an empty array or null. -/
inductive QueryRes where
  | emptyList
  | nullRes
deriving Repr, DecidableEq

/-- query of the exported enhanced-client class: a switch on the
function name returning an empty list for the GetAll operations and
null for the by-id operations and by default; never throws. -/
def query (orgName functionName : String) (args : List String) :
    Except String QueryRes :=
  let _ := orgName
  let _ := args
  .ok (match functionName with
    | "GetAllWastes" => .emptyList
    | "GetWaste" => .nullRes
    | "GetAllExtractions" => .emptyList
    | "GetExtraction" => .nullRes
    | "GetAllRecyclings" => .emptyList
    | "GetRecycling" => .nullRes
    | _ => .nullRes)

/-- queryAll of the exported class delegates to query. -/
def queryAll (orgName functionName : String) (args : List String) :
    Except String QueryRes :=
  query orgName functionName args

end Mock

namespace WasteCtrl

/-- A waste record of the local mirror of the controller (tempWastes). The
JS field type is spelled type2; parseFloat(quantity) is modelled by
carrying the raw numeric string, since no claim inspects the parsed
value. -/
structure MirrorWaste where
  id : String
  wasteId : String
  farmerId : String
  type2 : String
  quantity : String
  harvestDate : String
  status : String
  location : String
  qualityGrade : String
  moistureContent : String
  timestamp : String
  transferDate : Option String
deriving Repr, DecidableEq

/-- The wasteData object of a create request. A field holding any falsy
JavaScript value (undefined, null, empty string, zero) is modelled as
none, since the controller only tests truthiness before using it. -/
structure WasteData where
  type2 : Option String
  quantity : Option String
  harvestDate : Option String
  status : Option String
  farmerId : Option String
  location : Option String
  qualityGrade : Option String
  moistureContent : Option String
deriving Repr, DecidableEq

/-- The body of a create-waste request. -/
structure AddWasteReq where
  wasteData : Option WasteData
  farmerId : Option String
  location : Option String
  qualityGrade : Option String
  moistureContent : Option String
deriving Repr, DecidableEq

/-- The JSON response of addWaste, together with the HTTP status. -/
structure AddWasteRes where
  status : Nat
  success : Bool
  message : Option String := none
  data : Option MirrorWaste := none
  blockchainTxId : Option String := none
  warning : Option String := none
  source : Option String := none
  error : Option String := none
  details : Option String := none
deriving Repr, DecidableEq

/-- The blockchainWasteData object built by addWaste once validation
has passed, with the defaulting chains of the JS code. -/
def mkBlockchainWasteData (req : AddWasteReq) (wd : WasteData)
    (t q hd s wasteId nowIso : String) : MirrorWaste :=
  { id := wasteId, wasteId := wasteId,
    farmerId := ((req.farmerId).orElse (fun _ => wd.farmerId)).getD "farmer_001",
    type2 := t, quantity := q, harvestDate := hd, status := s,
    location := ((req.location).orElse (fun _ => wd.location)).getD
      "Default Farm Location",
    qualityGrade := ((req.qualityGrade).orElse (fun _ => wd.qualityGrade)).getD "A",
    moistureContent := ((req.moistureContent).orElse
      (fun _ => wd.moistureContent)).getD "15%",
    timestamp := nowIso, transferDate := none }

/-- addWaste of the waste controller: validate the request, build the
waste object, then follow the fallback policy. The generated waste id
and the ledger submit outcome are explicit arguments; the function
returns the response paired with the new mirror contents. -/
def addWaste (st : List MirrorWaste) (req : AddWasteReq)
    (wasteId nowIso : String) (isInit : Bool)
    (submitRes : Except String Mock.MockTx) :
    AddWasteRes × List MirrorWaste :=
  match req.wasteData with
  | none =>
    ({ status := 400, success := false,
       error := some "Missing waste data",
       details := some "The wasteData field is required" }, st)
  | some wd =>
    match wd.type2, wd.quantity, wd.harvestDate, wd.status with
    | some t, some q, some hd, some s =>
      let newWaste := mkBlockchainWasteData req wd t q hd s wasteId nowIso
      if isInit then
        match submitRes with
        | .ok result =>
          ({ status := 201, success := true,
             message := some "Waste successfully recorded on blockchain",
             data := some newWaste,
             blockchainTxId := some (if result.transactionId == "" then
               "pending" else result.transactionId),
             source := some "blockchain" }, st ++ [newWaste])
        | .error emsg =>
          ({ status := 201, success := true,
             message := some
               "Waste added to temporary storage (blockchain unavailable)",
             data := some newWaste,
             warning := some ("Blockchain temporarily unavailable: " ++ emsg),
             source := some "fallback" }, st ++ [newWaste])
      else
        ({ status := 201, success := true,
           message := some
             "Waste added to temporary storage (blockchain initializing)",
           data := some newWaste,
           source := some "temporary" }, st ++ [newWaste])
    | _, _, _, _ =>
      ({ status := 400, success := false,
         error := some "Incomplete data",
         details := some
           "All fields are required: type, quantity, harvestDate, status" }, st)

/-- The JSON response of listWaste. -/
structure ListWasteRes where
  status : Nat
  success : Bool
  data : List MirrorWaste
  count : Nat
  source : String
  timestamp : String
deriving Repr, DecidableEq

/-- listWaste of the waste controller: serve the ledger data when the
client is isInit and the query yields a non-empty list; serve the
mirror labeled temporary on an empty result or when not isInit;
serve the mirror labeled fallback when the query throws. -/
def listWaste (st : List MirrorWaste) (isInit : Bool)
    (queryRes : Except String (List MirrorWaste)) (nowIso : String) :
    ListWasteRes :=
  if isInit then
    match queryRes with
    | .ok l =>
      if l.length > 0 then
        { status := 200, success := true, data := l, count := l.length,
          source := "blockchain", timestamp := nowIso }
      else
        { status := 200, success := true, data := st, count := st.length,
          source := "temporary", timestamp := nowIso }
    | .error _ =>
      { status := 200, success := true, data := st, count := st.length,
        source := "fallback", timestamp := nowIso }
  else
    { status := 200, success := true, data := st, count := st.length,
      source := "temporary", timestamp := nowIso }

end WasteCtrl

namespace ExtractionCtrl

/-- An extraction record of the local mirror of the extraction controller. -/
structure MirrorExtraction where
  id : String
  extractionId : String
  wasteId : String
  processorId : String
  extractionDate : String
  productType : String
  quantity : String
  quality : String
  extractionMethod : String
  temperature : String
  pressure : String
  yieldPercentage : Int
  status : String
  timestamp : String
deriving Repr, DecidableEq

/-- The default extraction seeded into the mirror at module load, with
its new Date().toISOString() values as an explicit argument. -/
def defaultExtraction (nowIso : String) : MirrorExtraction :=
  { id := "EXTRACTION_DEFAULT_1", extractionId := "EXTRACTION_DEFAULT_1",
    wasteId := "WASTE_DEFAULT_1", processorId := "processor_001",
    extractionDate := nowIso, productType := "Huile olive",
    quantity := "10", quality := "Extra Vierge",
    extractionMethod := "Cold Press", temperature := "27°C",
    pressure := "3 bars", yieldPercentage := 20, status := "PROCESSED",
    timestamp := nowIso }

/-- The JSON response of getExtractionById. -/
structure ByIdRes where
  status : Nat
  success : Bool
  data : Option MirrorExtraction := none
  source : Option String := none
  error : Option String := none
  extractionId : Option String := none
deriving Repr, DecidableEq

/-- getExtractionById of the extraction controller: a found ledger
record is served as blockchain; a null result or a thrown query falls
through to the mirror, labeled fallback when the client is isInit
and temporary otherwise; a mirror miss is a 404. -/
def getExtractionById (st : List MirrorExtraction) (extractionId : String)
    (isInit : Bool)
    (queryRes : Except String (Option MirrorExtraction)) : ByIdRes :=
  if extractionId == "" then
    { status := 400, success := false,
      error := some "Missing extractionId parameter" }
  else
    let fromMirror : ByIdRes :=
      match st.find? (fun e => e.id == extractionId ||
          e.extractionId == extractionId) with
      | some e =>
        { status := 200, success := true, data := some e,
          source := some (if isInit then "fallback" else "temporary") }
      | none =>
        { status := 404, success := false,
          error := some "Extraction not found",
          extractionId := some extractionId }
    if isInit then
      match queryRes with
      | .ok (some e) =>
        { status := 200, success := true, data := some e,
          source := some "blockchain" }
      | _ => fromMirror
    else fromMirror

/-- The JSON response of getExtractionsByWasteId. -/
structure ByWasteRes where
  status : Nat
  success : Bool
  data : List MirrorExtraction := []
  count : Nat := 0
  wasteId : Option String := none
  source : Option String := none
  error : Option String := none
  timestamp : Option String := none
deriving Repr, DecidableEq

/-- getExtractionsByWasteId of the extraction controller. Note the shape
of the empty-result path: when the client is isInit and the ledger
query succeeds with an empty list, relatedExtractions keeps its initial
empty value and the source keeps its initial temporary label; the
mirror is filtered only when the query throws or when the client is not
isInit. -/
def getExtractionsByWasteId (st : List MirrorExtraction) (wasteId : String)
    (isInit : Bool)
    (queryRes : Except String (List MirrorExtraction)) (nowIso : String) :
    ByWasteRes :=
  if wasteId == "" then
    { status := 400, success := false,
      error := some "Missing wasteId parameter" }
  else
    if isInit then
      match queryRes with
      | .ok l =>
        if l.length > 0 then
          { status := 200, success := true, data := l, count := l.length,
            wasteId := some wasteId, source := some "blockchain",
            timestamp := some nowIso }
        else
          { status := 200, success := true, data := [], count := 0,
            wasteId := some wasteId, source := some "temporary",
            timestamp := some nowIso }
      | .error _ =>
        let f := st.filter (fun e => e.wasteId == wasteId)
        { status := 200, success := true, data := f, count := f.length,
          wasteId := some wasteId, source := some "fallback",
          timestamp := some nowIso }
    else
      let f := st.filter (fun e => e.wasteId == wasteId)
      { status := 200, success := true, data := f, count := f.length,
        wasteId := some wasteId, source := some "temporary",
        timestamp := some nowIso }

end ExtractionCtrl

/-- The history of an optional entity record: empty when absent, as in
the chain merge of GetTraceability. -/
def extHist : Option Extraction → List HistoryEvent
  | some e => e.History
  | none => []

/-- As extHist, for recyclings. -/
def recHist : Option Recycling → List HistoryEvent
  | some r => r.History
  | none => []

/-- All extraction records stored in the extraction key range, in store
enumeration order. -/
def extractionRecords (st : World) : List Extraction :=
  (getStateByRange st "EXTRACTION_" "EXTRACTION_~").filterMap
    (fun kv => match kv.2 with | .extrV e => some e | _ => none)

/-- All recycling records stored in the recycling key range, in store
enumeration order. -/
def recyclingRecords (st : World) : List Recycling :=
  (getStateByRange st "RECYCLING_" "RECYCLING_~").filterMap
    (fun kv => match kv.2 with | .recV r => some r | _ => none)

/-- The status of the waste stored under an id, if any. -/
def statusOf (st : World) (id : String) : Option String :=
  match getState st ("WASTE_" ++ id) with
  | some (.wasteV w) => some w.Status
  | _ => none

/-- The action tags of the history of the entity stored under a key. -/
def historyActionsOf (st : World) (key : String) : List String :=
  match getState st key with
  | some (.wasteV w) => w.History.map (fun e => e.Action)
  | some (.extrV e) => e.History.map (fun ev => ev.Action)
  | some (.recV r) => r.History.map (fun ev => ev.Action)
  | none => []

/-- Looking up the key just written returns the written value. -/
theorem getState_putState_self (st : World) (k : String) (v : StoreVal) :
    getState (putState st k v) k = some v := by
  induction st with
  | nil => simp [putState, getState]
  | cons head rest ih =>
    obtain ⟨k1, v1⟩ := head
    simp only [putState]
    by_cases h1 : (k == k1) = true
    · simp [h1, getState]
    · by_cases h2 : keyLt k k1
      · simp [h1, h2, getState]
      · simp [h1, h2, getState, ih]

/-- Writing one key does not change the value stored under another. -/
theorem getState_putState_ne (st : World) (k key : String) (v : StoreVal)
    (hne : key ≠ k) :
    getState (putState st k v) key = getState st key := by
  induction st with
  | nil => simp [putState, getState, hne]
  | cons head rest ih =>
    obtain ⟨k1, v1⟩ := head
    simp only [putState]
    by_cases h1 : (k == k1) = true
    · have hk : k = k1 := by simpa using h1
      subst hk
      simp [getState, hne]
    · by_cases h2 : keyLt k k1
      · simp [h1, h2, getState, hne]
      · simp [h1, h2, getState, ih]

/-- Keys in the extraction namespace never equal keys in the waste
namespace: the prefixes differ at the first character. -/
theorem extr_key_ne_waste_key (a b : String) :
    ("EXTRACTION_" ++ a) ≠ ("WASTE_" ++ b) := by
  intro h
  have h3 := congrArg (fun s => s.data.head?) h
  simp only [show ∀ x : String, ("EXTRACTION_" ++ x).data.head? = some 'E'
      from fun _ => rfl,
    show ∀ x : String, ("WASTE_" ++ x).data.head? = some 'W'
      from fun _ => rfl] at h3
  exact absurd (Option.some.inj h3) (by decide)

/-- Keys in the recycling namespace never equal keys in the waste
namespace. -/
theorem rec_key_ne_waste_key (a b : String) :
    ("RECYCLING_" ++ a) ≠ ("WASTE_" ++ b) := by
  intro h
  have h3 := congrArg (fun s => s.data.head?) h
  simp only [show ∀ x : String, ("RECYCLING_" ++ x).data.head? = some 'R'
      from fun _ => rfl,
    show ∀ x : String, ("WASTE_" ++ x).data.head? = some 'W'
      from fun _ => rfl] at h3
  exact absurd (Option.some.inj h3) (by decide)

/-- The break-on-first-match loop over a range scan equals find? over
the extraction records of that scan. -/
theorem findFirstExtraction_eq_find (l : List (String × StoreVal))
    (wid : String) :
    Enhanced.findFirstExtraction l wid =
      (l.filterMap (fun kv =>
        match kv.2 with | .extrV e => some e | _ => none)).find?
        (fun e => e.WasteID == wid) := by
  induction l with
  | nil => rfl
  | cons kv rest ih =>
    obtain ⟨k, v⟩ := kv
    cases v with
    | wasteV w => simpa [Enhanced.findFirstExtraction] using ih
    | extrV e =>
      by_cases h : (e.WasteID == wid) = true
      · simp [Enhanced.findFirstExtraction, h]
      · simp [Enhanced.findFirstExtraction, h, ih]
    | recV r => simpa [Enhanced.findFirstExtraction] using ih

/-- The break-on-first-match loop over a range scan equals find? over
the recycling records of that scan. -/
theorem findFirstRecycling_eq_find (l : List (String × StoreVal))
    (wid : String) :
    Enhanced.findFirstRecycling l wid =
      (l.filterMap (fun kv =>
        match kv.2 with | .recV r => some r | _ => none)).find?
        (fun r => r.WasteID == wid) := by
  induction l with
  | nil => rfl
  | cons kv rest ih =>
    obtain ⟨k, v⟩ := kv
    cases v with
    | wasteV w => simpa [Enhanced.findFirstRecycling] using ih
    | extrV e => simpa [Enhanced.findFirstRecycling] using ih
    | recV r =>
      by_cases h : (r.WasteID == wid) = true
      · simp [Enhanced.findFirstRecycling, h]
      · simp [Enhanced.findFirstRecycling, h, ih]

/-- One chaincode invocation: the write operations of the enhanced
smart contract. -/
inductive Op where
  | createWaste (id wasteType : String) (quantity : Int)
      (harvestDate owner farm location now : String)
  | createExtraction (id wasteId productType : String) (quantity : Int)
      (quality processor now : String)
  | createRecycling (id wasteId recycledProduct : String) (quantity : Int)
      (method recycler now : String)
  | updateStatus (id newStatus actor details now : String)
  | initLedger (now : String)
deriving Repr, DecidableEq

/-- Apply one invocation to the world state; a failed invocation leaves
the state unchanged. -/
def applyOp (st : World) : Op → World
  | .createWaste id t q hd o f l now =>
    (Enhanced.CreateWaste st id t q hd o f l now).2
  | .createExtraction id wid pt q ql pr now =>
    (Enhanced.CreateExtraction st id wid pt q ql pr now).2
  | .createRecycling id wid rp q m r now =>
    (Enhanced.CreateRecycling st id wid rp q m r now).2
  | .updateStatus id ns a d now =>
    (Enhanced.UpdateWasteStatus st id ns a d now).2
  | .initLedger now => (Enhanced.InitLedger st now).2

/-- Run a sequence of invocations from a starting state. -/
def run (st : World) : List Op → World
  | [] => st
  | op :: ops => run (applyOp st op) ops

/-- Whether a status string is one of the three documented waste
statuses. -/
def wasteStatusOKb (s : String) : Bool :=
  s == "COLLECTED" || s == "PROCESSED" || s == "RECYCLED"

/-- Whether a stored value is either not a waste or a waste whose
status is documented. -/
def valStatusOKb : StoreVal → Bool
  | .wasteV w => wasteStatusOKb w.Status
  | _ => true

/-- Every stored waste of the world has a documented status. -/
def goodWorld (st : World) : Prop :=
  ∀ kv ∈ st, valStatusOKb kv.2 = true

/-- Whether an invocation only ever installs documented statuses: the
create operations always do, while an explicit status update must be
asked to. -/
def opStatusOKb : Op → Bool
  | .updateStatus _ ns _ _ _ => wasteStatusOKb ns
  | _ => true

/-- putState only adds the written value to the range of the store. -/
theorem mem_putState (st : World) (k : String) (v : StoreVal)
    (kv : String × StoreVal) (h : kv ∈ putState st k v) :
    kv.2 = v ∨ kv ∈ st := by
  induction st with
  | nil =>
    simp [putState] at h
    simp [h]
  | cons head rest ih =>
    obtain ⟨k1, v1⟩ := head
    simp only [putState] at h
    by_cases h1 : (k == k1) = true
    · simp [h1] at h
      rcases h with h | h
      · simp [h]
      · simp [h]
    · by_cases h2 : keyLt k k1
      · simp [h1, h2] at h
        rcases h with h | h | h
        · simp [h]
        · simp [h]
        · simp [h]
      · simp [h1, h2] at h
        rcases h with h | h
        · simp [h]
        · rcases ih h with h3 | h3
          · exact Or.inl h3
          · simp [h3]

/-- Writing a value with a documented status preserves the store
invariant. -/
theorem goodWorld_putState (st : World) (k : String) (v : StoreVal)
    (hst : goodWorld st) (hv : valStatusOKb v = true) :
    goodWorld (putState st k v) := by
  intro kv hkv
  rcases mem_putState st k v kv hkv with h | h
  · rw [h]; exact hv
  · exact hst kv h

/-- CreateWaste preserves the status invariant: it installs COLLECTED. -/
theorem goodWorld_CreateWaste (st : World) (id t : String) (q : Int)
    (hd o f l now : String) (hst : goodWorld st) :
    goodWorld (Enhanced.CreateWaste st id t q hd o f l now).2 := by
  unfold Enhanced.CreateWaste
  by_cases h : Enhanced.WasteExists st id
  · simpa [h] using hst
  · simp only [h, Bool.false_eq_true, if_false]
    exact goodWorld_putState _ _ _ hst (by rfl)

/-- UpdateWasteStatus preserves the status invariant provided the new
status is documented. -/
theorem goodWorld_UpdateWasteStatus (st : World) (id ns a d now : String)
    (hst : goodWorld st) (hns : wasteStatusOKb ns = true) :
    goodWorld (Enhanced.UpdateWasteStatus st id ns a d now).2 := by
  unfold Enhanced.UpdateWasteStatus
  cases hR : Enhanced.ReadWaste st id with
  | error e => simpa using hst
  | ok w =>
    simp only []
    exact goodWorld_putState _ _ _ hst (by simpa [valStatusOKb] using hns)

/-- CreateExtraction preserves the status invariant: it installs
PROCESSED on the referenced waste. -/
theorem goodWorld_CreateExtraction (st : World) (id wid pt : String)
    (q : Int) (ql pr now : String) (hst : goodWorld st) :
    goodWorld (Enhanced.CreateExtraction st id wid pt q ql pr now).2 := by
  unfold Enhanced.CreateExtraction
  cases hR : Enhanced.ReadWaste st wid with
  | error e => simpa using hst
  | ok w =>
    cases hE : getState st ("EXTRACTION_" ++ id) with
    | some v => simpa using hst
    | none =>
      simp only []
      exact goodWorld_UpdateWasteStatus _ _ _ _ _ _
        (goodWorld_putState _ _ _ hst (by rfl)) (by rfl)

/-- CreateRecycling preserves the status invariant: it installs
RECYCLED on the referenced waste. -/
theorem goodWorld_CreateRecycling (st : World) (id wid rp : String)
    (q : Int) (m r now : String) (hst : goodWorld st) :
    goodWorld (Enhanced.CreateRecycling st id wid rp q m r now).2 := by
  unfold Enhanced.CreateRecycling
  cases hR : Enhanced.ReadWaste st wid with
  | error e => simpa using hst
  | ok w =>
    cases hE : getState st ("RECYCLING_" ++ id) with
    | some v => simpa using hst
    | none =>
      simp only []
      exact goodWorld_UpdateWasteStatus _ _ _ _ _ _
        (goodWorld_putState _ _ _ hst (by rfl)) (by rfl)

/-- InitLedger preserves the status invariant: its sample waste is
COLLECTED. -/
theorem goodWorld_InitLedger (st : World) (now : String)
    (hst : goodWorld st) : goodWorld (Enhanced.InitLedger st now).2 := by
  unfold Enhanced.InitLedger
  exact goodWorld_putState _ _ _ hst (by rfl)

/-- Any single invocation that only installs documented statuses
preserves the store invariant. -/
theorem goodWorld_applyOp (st : World) (op : Op) (hst : goodWorld st)
    (hop : opStatusOKb op = true) : goodWorld (applyOp st op) := by
  cases op with
  | createWaste id t q hd o f l now => exact goodWorld_CreateWaste _ _ _ _ _ _ _ _ _ hst
  | createExtraction id wid pt q ql pr now =>
    exact goodWorld_CreateExtraction _ _ _ _ _ _ _ _ hst
  | createRecycling id wid rp q m r now =>
    exact goodWorld_CreateRecycling _ _ _ _ _ _ _ _ hst
  | updateStatus id ns a d now =>
    exact goodWorld_UpdateWasteStatus _ _ _ _ _ _ hst (by simpa [opStatusOKb] using hop)
  | initLedger now => exact goodWorld_InitLedger _ _ hst

/-- Running a sequence of invocations that only install documented
statuses preserves the store invariant. -/
theorem goodWorld_run (ops : List Op) (st : World) (hst : goodWorld st)
    (hops : ∀ op ∈ ops, opStatusOKb op = true) : goodWorld (run st ops) := by
  induction ops generalizing st with
  | nil => simpa [run] using hst
  | cons op rest ih =>
    simp only [run]
    exact ih (applyOp st op)
      (goodWorld_applyOp st op hst (hops op (by simp)))
      (fun o ho => hops o (by simp [ho]))

/-- The quantity of the waste stored under an id, if any. -/
def quantityOf (st : World) (id : String) : Option Int :=
  match getState st ("WASTE_" ++ id) with
  | some (.wasteV w) => some w.Quantity
  | _ => none

/-- The world of the concrete scenario of the spec: waste WASTE_A created at
t0, then extraction EXTR_A referencing it created at t1. -/
def scenarioWorld : World :=
  (Enhanced.CreateExtraction
    (Enhanced.CreateWaste [] "WASTE_A" "Branches" 50 "2025-06-01" "farmer1"
      "farm" "loc" "t0").2
    "EXTR_A" "WASTE_A" "Oil" 10 "ExtraV" "proc1" "t1").2

/-- A world holding exactly one freshly created waste WA. -/
def c1World : World :=
  (Enhanced.CreateWaste [] "WA" "Branches" 50 "2025-06-01" "farmer1" "farm"
    "loc" "t0").2

/-- The waste record stored in c1World. -/
def c1Waste : Waste :=
  { ID := "WA", Type2 := "Branches", Quantity := 50,
    HarvestDate := "2025-06-01", Status := "COLLECTED", Owner := "farmer1",
    Farm := "farm", Location := "loc", CreatedAt := "t0", UpdatedAt := "t0",
    History := [{ Timestamp := "t0", Action := "CREATED", Actor := "farmer1",
                  Details := "Waste collected: Branches, Quantity: 50" }] }

/-- C1: for every stored waste id, GetTraceability returns the chain
waste.history, then the history of the first extraction in store
enumeration order whose waste reference equals the id (omitted when no
such record exists), then likewise for recyclings, in that fixed order;
in particular, with no linked extraction or recycling the chain equals
exactly the history of the waste. -/
theorem getTraceability_chain_decomposition (st : World) (wasteId : String)
    (w : Waste) (hw : Enhanced.ReadWaste st wasteId = .ok w) :
    Enhanced.GetTraceability st wasteId = .ok
      { Waste := some w,
        Extraction := (extractionRecords st).find? (fun e => e.WasteID == wasteId),
        Recycling := (recyclingRecords st).find? (fun r => r.WasteID == wasteId),
        Chain := w.History
          ++ extHist ((extractionRecords st).find? (fun e => e.WasteID == wasteId))
          ++ recHist ((recyclingRecords st).find? (fun r => r.WasteID == wasteId)) }
    ∧ ((extractionRecords st).find? (fun e => e.WasteID == wasteId) = none →
       (recyclingRecords st).find? (fun r => r.WasteID == wasteId) = none →
       ∃ info, Enhanced.GetTraceability st wasteId = .ok info ∧
         info.Chain = w.History) := by
  have hmain : Enhanced.GetTraceability st wasteId = .ok
      { Waste := some w,
        Extraction := (extractionRecords st).find? (fun e => e.WasteID == wasteId),
        Recycling := (recyclingRecords st).find? (fun r => r.WasteID == wasteId),
        Chain := w.History
          ++ extHist ((extractionRecords st).find? (fun e => e.WasteID == wasteId))
          ++ recHist ((recyclingRecords st).find? (fun r => r.WasteID == wasteId)) } := by
    unfold Enhanced.GetTraceability
    rw [hw]
    simp only [findFirstExtraction_eq_find, findFirstRecycling_eq_find]
    rfl
  refine ⟨hmain, fun he hr => ⟨_, hmain, ?_⟩⟩
  simp [he, hr, extHist, recHist]

/-- Witness for C1 at a concrete world with one waste and no linked
extraction or recycling. -/
theorem getTraceability_chain_decomposition_witness :
    Enhanced.ReadWaste c1World "WA" = .ok c1Waste ∧
    (Enhanced.GetTraceability c1World "WA" = .ok
      { Waste := some c1Waste,
        Extraction := (extractionRecords c1World).find? (fun e => e.WasteID == "WA"),
        Recycling := (recyclingRecords c1World).find? (fun r => r.WasteID == "WA"),
        Chain := c1Waste.History
          ++ extHist ((extractionRecords c1World).find? (fun e => e.WasteID == "WA"))
          ++ recHist ((recyclingRecords c1World).find? (fun r => r.WasteID == "WA")) }
     ∧ ((extractionRecords c1World).find? (fun e => e.WasteID == "WA") = none →
        (recyclingRecords c1World).find? (fun r => r.WasteID == "WA") = none →
        ∃ info, Enhanced.GetTraceability c1World "WA" = .ok info ∧
          info.Chain = c1Waste.History)) :=
  ⟨by rfl, getTraceability_chain_decomposition c1World "WA" c1Waste (by rfl)⟩

/-- The defining equation of a successful UpdateWasteStatus: the waste
under the id is rewritten with the new status, the new updated-at and
one appended STATUS_CHANGED event. -/
theorem updateStatus_eq (st : World) (id ns a d now : String)
    (w : Waste) (hw : getState st ("WASTE_" ++ id) = some (.wasteV w)) :
    Enhanced.UpdateWasteStatus st id ns a d now =
      (.ok (), putState st ("WASTE_" ++ id) (.wasteV
        { w with Status := ns, UpdatedAt := now,
                 History := w.History ++ [Enhanced.statusEvent w.Status ns a d now] })) := by
  unfold Enhanced.UpdateWasteStatus Enhanced.ReadWaste
  rw [hw]

/-- C9: a successful UpdateWasteStatus changes exactly the Status,
UpdatedAt and History fields, sets Status to the new status, and
appends exactly one event to the history. -/
theorem updateWasteStatus_frame (st : World) (id ns a d now : String)
    (w : Waste) (hw : getState st ("WASTE_" ++ id) = some (.wasteV w)) :
    Enhanced.UpdateWasteStatus st id ns a d now =
      (.ok (), putState st ("WASTE_" ++ id) (.wasteV
        { w with Status := ns, UpdatedAt := now,
                 History := w.History ++ [Enhanced.statusEvent w.Status ns a d now] }))
    ∧ getState (Enhanced.UpdateWasteStatus st id ns a d now).2 ("WASTE_" ++ id) =
        some (.wasteV
          { w with Status := ns, UpdatedAt := now,
                   History := w.History ++ [Enhanced.statusEvent w.Status ns a d now] })
    ∧ (w.History ++ [Enhanced.statusEvent w.Status ns a d now]).length =
        w.History.length + 1
    ∧ (Enhanced.statusEvent w.Status ns a d now).Action = "STATUS_CHANGED" := by
  have hmain := updateStatus_eq st id ns a d now w hw
  refine ⟨hmain, ?_, by simp, rfl⟩
  rw [hmain]
  exact getState_putState_self _ _ _

/-- Witness for C9 at the concrete one-waste world. -/
theorem updateWasteStatus_frame_witness :
    getState c1World ("WASTE_" ++ "WA") = some (.wasteV c1Waste) ∧
    (Enhanced.UpdateWasteStatus c1World "WA" "PROCESSED" "p1" "d1" "t1" =
      (.ok (), putState c1World ("WASTE_" ++ "WA") (.wasteV
        { c1Waste with
            Status := "PROCESSED", UpdatedAt := "t1",
            History := c1Waste.History ++
              [Enhanced.statusEvent c1Waste.Status "PROCESSED" "p1" "d1" "t1"] }))
    ∧ getState (Enhanced.UpdateWasteStatus c1World "WA" "PROCESSED" "p1" "d1" "t1").2
        ("WASTE_" ++ "WA") =
      some (.wasteV
        { c1Waste with
            Status := "PROCESSED", UpdatedAt := "t1",
            History := c1Waste.History ++
              [Enhanced.statusEvent c1Waste.Status "PROCESSED" "p1" "d1" "t1"] })
    ∧ (c1Waste.History ++
        [Enhanced.statusEvent c1Waste.Status "PROCESSED" "p1" "d1" "t1"]).length =
      c1Waste.History.length + 1
    ∧ (Enhanced.statusEvent c1Waste.Status "PROCESSED" "p1" "d1" "t1").Action =
      "STATUS_CHANGED") :=
  ⟨by rfl, updateWasteStatus_frame c1World "WA" "PROCESSED" "p1" "d1" "t1" c1Waste (by rfl)⟩

/-- C4: successfully creating an extraction that references an existing
waste sets the status of the waste to PROCESSED and appends exactly one
STATUS_CHANGED event to its history; in the concrete scenario of the spec a
freshly created waste then has exactly the two events CREATED followed
by STATUS_CHANGED. -/
theorem createExtraction_processes_waste (st : World) (id wasteId pt : String)
    (q : Int) (ql pr now : String) (w : Waste)
    (hw : getState st ("WASTE_" ++ wasteId) = some (.wasteV w))
    (hfresh : getState st ("EXTRACTION_" ++ id) = none) :
    (Enhanced.CreateExtraction st id wasteId pt q ql pr now).1 = .ok ()
    ∧ getState (Enhanced.CreateExtraction st id wasteId pt q ql pr now).2
        ("WASTE_" ++ wasteId) =
      some (.wasteV
        { w with
            Status := "PROCESSED", UpdatedAt := now,
            History := w.History ++
              [Enhanced.statusEvent w.Status "PROCESSED" pr
                ("Used for " ++ pt ++ " extraction") now] })
    ∧ (w.History ++
        [Enhanced.statusEvent w.Status "PROCESSED" pr
          ("Used for " ++ pt ++ " extraction") now]).length =
      w.History.length + 1
    ∧ (Enhanced.statusEvent w.Status "PROCESSED" pr
        ("Used for " ++ pt ++ " extraction") now).Action = "STATUS_CHANGED"
    ∧ statusOf scenarioWorld "WASTE_A" = some "PROCESSED"
    ∧ historyActionsOf scenarioWorld ("WASTE_" ++ "WASTE_A") =
        ["CREATED", "STATUS_CHANGED"] := by
  have hRW : Enhanced.ReadWaste st wasteId = .ok w := by
    unfold Enhanced.ReadWaste
    rw [hw]
  have hst1 : getState
      (putState st ("EXTRACTION_" ++ id) (.extrV
        { ID := id, WasteID := wasteId, ProductType := pt, Quantity := q,
          Quality := ql, ExtractionDate := now, Processor := pr,
          Status := "PROCESSED", CreatedAt := now,
          History := [{ Timestamp := now, Action := "EXTRACTED", Actor := pr,
                        Details := "Extracted " ++ pt ++ " (" ++ toString q ++
                                   " units) from waste " ++ wasteId }] }))
      ("WASTE_" ++ wasteId) = some (.wasteV w) := by
    rw [getState_putState_ne _ _ _ _ (Ne.symm (extr_key_ne_waste_key id wasteId))]
    exact hw
  have hstep : Enhanced.CreateExtraction st id wasteId pt q ql pr now =
      (.ok (), putState
        (putState st ("EXTRACTION_" ++ id) (.extrV
          { ID := id, WasteID := wasteId, ProductType := pt, Quantity := q,
            Quality := ql, ExtractionDate := now, Processor := pr,
            Status := "PROCESSED", CreatedAt := now,
            History := [{ Timestamp := now, Action := "EXTRACTED", Actor := pr,
                          Details := "Extracted " ++ pt ++ " (" ++ toString q ++
                                     " units) from waste " ++ wasteId }] }))
        ("WASTE_" ++ wasteId) (.wasteV
          { w with
              Status := "PROCESSED", UpdatedAt := now,
              History := w.History ++
                [Enhanced.statusEvent w.Status "PROCESSED" pr
                  ("Used for " ++ pt ++ " extraction") now] })) := by
    unfold Enhanced.CreateExtraction
    rw [hRW, hfresh]
    simp only []
    exact updateStatus_eq _ _ _ _ _ _ _ hst1
  refine ⟨by rw [hstep], ?_, by simp, rfl, by rfl, by rfl⟩
  rw [hstep]
  exact getState_putState_self _ _ _

/-- Witness for C4: extraction E1 created against the concrete one-waste
world c1World. -/
theorem createExtraction_processes_waste_witness :
    getState c1World ("WASTE_" ++ "WA") = some (.wasteV c1Waste) ∧
    getState c1World ("EXTRACTION_" ++ "E1") = none ∧
    ((Enhanced.CreateExtraction c1World "E1" "WA" "Oil" 10 "Q" "proc" "t1").1 = .ok ()
     ∧ getState (Enhanced.CreateExtraction c1World "E1" "WA" "Oil" 10 "Q" "proc" "t1").2
         ("WASTE_" ++ "WA") =
       some (.wasteV
         { c1Waste with
             Status := "PROCESSED", UpdatedAt := "t1",
             History := c1Waste.History ++
               [Enhanced.statusEvent c1Waste.Status "PROCESSED" "proc"
                 ("Used for " ++ "Oil" ++ " extraction") "t1"] })
     ∧ (c1Waste.History ++
         [Enhanced.statusEvent c1Waste.Status "PROCESSED" "proc"
           ("Used for " ++ "Oil" ++ " extraction") "t1"]).length =
       c1Waste.History.length + 1
     ∧ (Enhanced.statusEvent c1Waste.Status "PROCESSED" "proc"
         ("Used for " ++ "Oil" ++ " extraction") "t1").Action = "STATUS_CHANGED"
     ∧ statusOf scenarioWorld "WASTE_A" = some "PROCESSED"
     ∧ historyActionsOf scenarioWorld ("WASTE_" ++ "WASTE_A") =
         ["CREATED", "STATUS_CHANGED"]) :=
  ⟨by rfl, by rfl,
   createExtraction_processes_waste c1World "E1" "WA" "Oil" 10 "Q" "proc" "t1"
     c1Waste (by rfl) (by rfl)⟩

/-- C6 (amended): the history of every freshly created entity has
exactly one event; its action tag is CREATED for a Waste, EXTRACTED for
an Extraction and RECYCLED for a Recycling. -/
theorem created_entity_first_event :
    (∀ (st : World) (id t : String) (q : Int) (hd o f l now : String),
      getState st ("WASTE_" ++ id) = none →
      historyActionsOf (Enhanced.CreateWaste st id t q hd o f l now).2
        ("WASTE_" ++ id) = ["CREATED"])
    ∧ (∀ (st : World) (id wid pt : String) (q : Int) (ql pr now : String)
        (w : Waste),
      getState st ("WASTE_" ++ wid) = some (.wasteV w) →
      getState st ("EXTRACTION_" ++ id) = none →
      historyActionsOf (Enhanced.CreateExtraction st id wid pt q ql pr now).2
        ("EXTRACTION_" ++ id) = ["EXTRACTED"])
    ∧ (∀ (st : World) (id wid rp : String) (q : Int) (m r now : String)
        (w : Waste),
      getState st ("WASTE_" ++ wid) = some (.wasteV w) →
      getState st ("RECYCLING_" ++ id) = none →
      historyActionsOf (Enhanced.CreateRecycling st id wid rp q m r now).2
        ("RECYCLING_" ++ id) = ["RECYCLED"]) := by
  refine ⟨?_, ?_, ?_⟩
  · intro st id t q hd o f l now hnone
    have hex : Enhanced.WasteExists st id = false := by
      unfold Enhanced.WasteExists
      rw [hnone]
      rfl
    unfold Enhanced.CreateWaste
    rw [hex]
    simp only [Bool.false_eq_true, if_false]
    unfold historyActionsOf
    rw [getState_putState_self]
    rfl
  · intro st id wid pt q ql pr now w hw hfresh
    have hRW : Enhanced.ReadWaste st wid = .ok w := by
      unfold Enhanced.ReadWaste
      rw [hw]
    unfold Enhanced.CreateExtraction
    rw [hRW, hfresh]
    simp only []
    rw [updateStatus_eq _ _ _ _ _ _ w
      (by rw [getState_putState_ne _ _ _ _ (Ne.symm (extr_key_ne_waste_key id wid))]
          exact hw)]
    unfold historyActionsOf
    rw [getState_putState_ne _ _ _ _ (extr_key_ne_waste_key id wid),
      getState_putState_self]
    rfl
  · intro st id wid rp q m r now w hw hfresh
    have hRW : Enhanced.ReadWaste st wid = .ok w := by
      unfold Enhanced.ReadWaste
      rw [hw]
    unfold Enhanced.CreateRecycling
    rw [hRW, hfresh]
    simp only []
    rw [updateStatus_eq _ _ _ _ _ _ w
      (by rw [getState_putState_ne _ _ _ _ (Ne.symm (rec_key_ne_waste_key id wid))]
          exact hw)]
    unfold historyActionsOf
    rw [getState_putState_ne _ _ _ _ (rec_key_ne_waste_key id wid),
      getState_putState_self]
    rfl

/-- Witness for C6 at concrete creations of each entity type. -/
theorem created_entity_first_event_witness :
    historyActionsOf
      (Enhanced.CreateWaste [] "WA" "Branches" 50 "2025-06-01" "farmer1"
        "farm" "loc" "t0").2 ("WASTE_" ++ "WA") = ["CREATED"]
    ∧ historyActionsOf
        (Enhanced.CreateExtraction c1World "E1" "WA" "Oil" 10 "Q" "proc" "t1").2
        ("EXTRACTION_" ++ "E1") = ["EXTRACTED"]
    ∧ historyActionsOf
        (Enhanced.CreateRecycling c1World "R1" "WA" "Compost" 5 "M" "rec" "t1").2
        ("RECYCLING_" ++ "R1") = ["RECYCLED"] :=
  ⟨created_entity_first_event.1 [] "WA" "Branches" 50 "2025-06-01" "farmer1"
     "farm" "loc" "t0" (by rfl),
   created_entity_first_event.2.1 c1World "E1" "WA" "Oil" 10 "Q" "proc" "t1"
     c1Waste (by rfl) (by rfl),
   created_entity_first_event.2.2 c1World "R1" "WA" "Compost" 5 "M" "rec" "t1"
     c1Waste (by rfl) (by rfl)⟩

/-- Counterexample for C6 as stated: the first history event of the
extraction created in the concrete scenario of the spec carries action
EXTRACTED, not CREATED. -/
theorem extraction_first_event_not_created :
    historyActionsOf scenarioWorld ("EXTRACTION_" ++ "EXTR_A") = ["EXTRACTED"]
    ∧ (historyActionsOf scenarioWorld ("EXTRACTION_" ++ "EXTR_A")).head? ≠
        some "CREATED" := by
  refine ⟨by rfl, ?_⟩
  intro h
  rw [show historyActionsOf scenarioWorld ("EXTRACTION_" ++ "EXTR_A") =
    ["EXTRACTED"] from rfl] at h
  simp at h

/-- C3 (amended): creating an extraction or recycling whose referenced
waste id is absent fails with the reference-not-found error and leaves
the store unchanged; in particular a record with the new id exists
afterwards only if one already existed before the call. -/
theorem create_with_missing_reference_fails (st : World)
    (id wasteId pt rp : String) (q : Int) (ql pr m r now : String)
    (hnone : getState st ("WASTE_" ++ wasteId) = none) :
    Enhanced.CreateExtraction st id wasteId pt q ql pr now =
      (.error ("source waste not found: " ++
        ("waste " ++ wasteId ++ " does not exist")), st)
    ∧ Enhanced.CreateRecycling st id wasteId rp q m r now =
      (.error ("source waste not found: " ++
        ("waste " ++ wasteId ++ " does not exist")), st)
    ∧ (getState st ("EXTRACTION_" ++ id) = none →
       getState (Enhanced.CreateExtraction st id wasteId pt q ql pr now).2
         ("EXTRACTION_" ++ id) = none)
    ∧ (getState st ("RECYCLING_" ++ id) = none →
       getState (Enhanced.CreateRecycling st id wasteId rp q m r now).2
         ("RECYCLING_" ++ id) = none) := by
  have hRW : Enhanced.ReadWaste st wasteId =
      .error ("waste " ++ wasteId ++ " does not exist") := by
    unfold Enhanced.ReadWaste
    rw [hnone]
  have hext : Enhanced.CreateExtraction st id wasteId pt q ql pr now =
      (.error ("source waste not found: " ++
        ("waste " ++ wasteId ++ " does not exist")), st) := by
    unfold Enhanced.CreateExtraction
    rw [hRW]
  have hrec : Enhanced.CreateRecycling st id wasteId rp q m r now =
      (.error ("source waste not found: " ++
        ("waste " ++ wasteId ++ " does not exist")), st) := by
    unfold Enhanced.CreateRecycling
    rw [hRW]
  refine ⟨hext, hrec, ?_, ?_⟩
  · intro hfresh
    rw [hext]
    exact hfresh
  · intro hfresh
    rw [hrec]
    exact hfresh

/-- Witness for C3 at a concrete store holding one unrelated waste. -/
theorem create_with_missing_reference_fails_witness :
    getState c1World ("WASTE_" ++ "MISSING") = none ∧
    (Enhanced.CreateExtraction c1World "E9" "MISSING" "Oil" 1 "Q" "p" "t5" =
      (.error ("source waste not found: " ++
        ("waste " ++ "MISSING" ++ " does not exist")), c1World)
    ∧ Enhanced.CreateRecycling c1World "E9" "MISSING" "Compost" 1 "M" "r" "t5" =
      (.error ("source waste not found: " ++
        ("waste " ++ "MISSING" ++ " does not exist")), c1World)
    ∧ (getState c1World ("EXTRACTION_" ++ "E9") = none →
       getState (Enhanced.CreateExtraction c1World "E9" "MISSING" "Oil" 1 "Q"
         "p" "t5").2 ("EXTRACTION_" ++ "E9") = none)
    ∧ (getState c1World ("RECYCLING_" ++ "E9") = none →
       getState (Enhanced.CreateRecycling c1World "E9" "MISSING" "Compost" 1
         "M" "r" "t5").2 ("RECYCLING_" ++ "E9") = none)) :=
  ⟨by rfl,
   create_with_missing_reference_fails c1World "E9" "MISSING" "Oil" "Compost" 1
     "Q" "p" "M" "r" "t5" (by rfl)⟩

/-- Counterexample for C3 as stated: in the scenario world of the spec the
extraction EXTR_A already exists; re-creating it against a missing
waste id fails and writes nothing, yet an extraction record with that
id does exist afterwards, contradicting the afterwards-no-record part of
the claim. -/
theorem failed_create_keeps_preexisting_record :
    getState scenarioWorld ("WASTE_" ++ "MISSING") = none
    ∧ (Enhanced.CreateExtraction scenarioWorld "EXTR_A" "MISSING" "Oil" 1 "Q"
        "p" "t9").1 =
      .error "source waste not found: waste MISSING does not exist"
    ∧ (Enhanced.CreateExtraction scenarioWorld "EXTR_A" "MISSING" "Oil" 1 "Q"
        "p" "t9").2 = scenarioWorld
    ∧ getState (Enhanced.CreateExtraction scenarioWorld "EXTR_A" "MISSING"
        "Oil" 1 "Q" "p" "t9").2 ("EXTRACTION_" ++ "EXTR_A") ≠ none := by
  refine ⟨by rfl, by rfl, by rfl, ?_⟩
  intro h
  rw [show getState (Enhanced.CreateExtraction scenarioWorld "EXTR_A" "MISSING"
    "Oil" 1 "Q" "p" "t9").2 ("EXTRACTION_" ++ "EXTR_A") =
    getState scenarioWorld ("EXTRACTION_" ++ "EXTR_A") from rfl] at h
  exact Option.noConfusion (h.symm.trans (show getState scenarioWorld
    ("EXTRACTION_" ++ "EXTR_A") = getState scenarioWorld
    ("EXTRACTION_" ++ "EXTR_A") from rfl))

/-- C7 (amended): over any sequence of creates, explicit status updates
and ledger initializations starting from the empty store, every stored
status of every stored waste stays in the documented set, provided every explicit
status update in the sequence installs a documented status; the create
operations install COLLECTED, PROCESSED and RECYCLED themselves, but an
explicit update is stored verbatim whatever its status string is. -/
theorem reachable_waste_status_documented (ops : List Op)
    (hops : ∀ op ∈ ops, opStatusOKb op = true) :
    goodWorld (run [] ops) :=
  goodWorld_run ops [] (by intro kv hkv; cases hkv) hops

/-- Witness for C7 on a concrete compliant sequence. -/
theorem reachable_waste_status_documented_witness :
    (∀ op ∈ [Op.createWaste "WASTE_A" "Branches" 50 "2025-06-01" "farmer1"
               "farm" "loc" "t0",
             Op.createExtraction "EXTR_A" "WASTE_A" "Oil" 10 "Q" "proc" "t1",
             Op.updateStatus "WASTE_A" "RECYCLED" "rec" "done" "t2",
             Op.initLedger "t3"], opStatusOKb op = true)
    ∧ goodWorld (run []
        [Op.createWaste "WASTE_A" "Branches" 50 "2025-06-01" "farmer1" "farm"
           "loc" "t0",
         Op.createExtraction "EXTR_A" "WASTE_A" "Oil" 10 "Q" "proc" "t1",
         Op.updateStatus "WASTE_A" "RECYCLED" "rec" "done" "t2",
         Op.initLedger "t3"]) :=
  ⟨by decide,
   reachable_waste_status_documented
     [Op.createWaste "WASTE_A" "Branches" 50 "2025-06-01" "farmer1" "farm"
        "loc" "t0",
      Op.createExtraction "EXTR_A" "WASTE_A" "Oil" 10 "Q" "proc" "t1",
      Op.updateStatus "WASTE_A" "RECYCLED" "rec" "done" "t2",
      Op.initLedger "t3"] (by decide)⟩

/-- Counterexample for C7 as stated: a reachable sequence consisting of
a create followed by an explicit status update to READY leaves a stored
waste whose status is outside the documented set, as the storage layer
does not restrict the new status. -/
theorem reachable_waste_status_escapes :
    statusOf (run [] [Op.createWaste "w1" "Olives" 50 "2023-10-01" "farmer1"
        "" "" "t0",
      Op.updateStatus "w1" "READY" "farmer1" "" "t1"]) "w1" = some "READY"
    ∧ wasteStatusOKb "READY" = false := by
  refine ⟨by rfl, by rfl⟩

/-- C8 (amended): CreateWaste of the basic chaincode rejects every call
whose quantity string does not parse as a positive integer, with a
validation error and no write; CreateWaste of the enhanced chaincode and
the API controller do not enforce this, see the counterexample. -/
theorem basic_createWaste_rejects_nonpositive_quantity
    (parseDateOk : String → Bool) (st : Basic.BWorld)
    (id wt qty hd s o now : String)
    (hq : ∀ n : Int, Basic.goAtoi qty = some n → n ≤ 0) :
    (∃ e, (Basic.CreateWaste parseDateOk st id wt qty hd s o now).1 = .error e)
    ∧ (Basic.CreateWaste parseDateOk st id wt qty hd s o now).2 = st := by
  unfold Basic.CreateWaste
  by_cases hid : (id == "") = true
  · simp [hid]
  · simp only [hid, Bool.false_eq_true, if_false]
    cases hA : Basic.goAtoi qty with
    | none => simp
    | some n =>
      have hn : n ≤ 0 := hq n hA
      have hn2 : (n ≤ 0) = True := eq_true hn
      simp [hn2]

/-- Witness for C8 at quantity zero against the empty store. -/
theorem basic_createWaste_rejects_nonpositive_quantity_witness :
    (∃ e, (Basic.CreateWaste (fun _ => true) [] "w1" "Olives" "0" "2023-10-01"
      "READY" "farmer1" "t0").1 = .error e)
    ∧ (Basic.CreateWaste (fun _ => true) [] "w1" "Olives" "0" "2023-10-01"
      "READY" "farmer1" "t0").2 = [] :=
  basic_createWaste_rejects_nonpositive_quantity (fun _ => true) [] "w1"
    "Olives" "0" "2023-10-01" "READY" "farmer1" "t0"
    (by
      intro n h
      rw [show Basic.goAtoi "0" = some 0 from rfl] at h
      cases h
      exact le_refl 0)

/-- Counterexample for C8 as stated: the enhanced
CreateWaste performs no quantity validation at all; a call with
quantity -5 succeeds and a waste record with that quantity is written. -/
theorem enhanced_createWaste_accepts_negative_quantity :
    (Enhanced.CreateWaste [] "WNEG" "Branches" (-5) "2025-06-01" "farmer1"
      "f" "l" "t0").1 = .ok ()
    ∧ quantityOf (Enhanced.CreateWaste [] "WNEG" "Branches" (-5) "2025-06-01"
        "farmer1" "f" "l" "t0").2 "WNEG" = some (-5)
    ∧ statusOf (Enhanced.CreateWaste [] "WNEG" "Branches" (-5) "2025-06-01"
        "farmer1" "f" "l" "t0").2 "WNEG" = some "COLLECTED" := by
  refine ⟨by rfl, by rfl, by rfl⟩

/-- C2: when the client is initialized and the ledger write throws, a
validated create-waste request still returns HTTP 201 with success and
source fallback, the new waste is appended to the local mirror, and any
subsequent mirror-served list (whether served as temporary after an
empty ledger result or as fallback after a thrown query) contains it. -/
theorem addWaste_ledger_error_fallback (st : List WasteCtrl.MirrorWaste)
    (req : WasteCtrl.AddWasteReq) (wd : WasteCtrl.WasteData)
    (t q hd s wasteId nowIso emsg : String)
    (hwd : req.wasteData = some wd) (ht : wd.type2 = some t)
    (hq : wd.quantity = some q) (hh : wd.harvestDate = some hd)
    (hs : wd.status = some s) :
    (WasteCtrl.addWaste st req wasteId nowIso true (.error emsg)).1.status = 201
    ∧ (WasteCtrl.addWaste st req wasteId nowIso true (.error emsg)).1.success = true
    ∧ (WasteCtrl.addWaste st req wasteId nowIso true (.error emsg)).1.source =
        some "fallback"
    ∧ (WasteCtrl.addWaste st req wasteId nowIso true (.error emsg)).1.data =
        some (WasteCtrl.mkBlockchainWasteData req wd t q hd s wasteId nowIso)
    ∧ (WasteCtrl.addWaste st req wasteId nowIso true (.error emsg)).2 =
        st ++ [WasteCtrl.mkBlockchainWasteData req wd t q hd s wasteId nowIso]
    ∧ (∀ nowIso2,
        (WasteCtrl.listWaste
          (WasteCtrl.addWaste st req wasteId nowIso true (.error emsg)).2
          true (.ok []) nowIso2).source = "temporary"
        ∧ WasteCtrl.mkBlockchainWasteData req wd t q hd s wasteId nowIso ∈
          (WasteCtrl.listWaste
            (WasteCtrl.addWaste st req wasteId nowIso true (.error emsg)).2
            true (.ok []) nowIso2).data)
    ∧ (∀ nowIso2 emsg2,
        (WasteCtrl.listWaste
          (WasteCtrl.addWaste st req wasteId nowIso true (.error emsg)).2
          true (.error emsg2) nowIso2).source = "fallback"
        ∧ WasteCtrl.mkBlockchainWasteData req wd t q hd s wasteId nowIso ∈
          (WasteCtrl.listWaste
            (WasteCtrl.addWaste st req wasteId nowIso true (.error emsg)).2
            true (.error emsg2) nowIso2).data) := by
  have hr : WasteCtrl.addWaste st req wasteId nowIso true (.error emsg) =
      ({ status := 201, success := true,
         message := some
           "Waste added to temporary storage (blockchain unavailable)",
         data := some (WasteCtrl.mkBlockchainWasteData req wd t q hd s wasteId
           nowIso),
         warning := some ("Blockchain temporarily unavailable: " ++ emsg),
         source := some "fallback" },
       st ++ [WasteCtrl.mkBlockchainWasteData req wd t q hd s wasteId nowIso]) := by
    simp only [WasteCtrl.addWaste, hwd, ht, hq, hh, hs, if_true]
  rw [hr]
  refine ⟨rfl, rfl, rfl, rfl, rfl, ?_, ?_⟩
  · intro nowIso2
    refine ⟨rfl, ?_⟩
    simp [WasteCtrl.listWaste]
  · intro nowIso2 emsg2
    refine ⟨rfl, ?_⟩
    simp [WasteCtrl.listWaste]

/-- The wasteData of the concrete C2 request. -/
def c2Wd : WasteCtrl.WasteData :=
  { type2 := some "Branches", quantity := some "50",
    harvestDate := some "2025-06-01", status := some "READY",
    farmerId := none, location := none, qualityGrade := none,
    moistureContent := none }

/-- The concrete C2 request. -/
def c2Req : WasteCtrl.AddWasteReq :=
  { wasteData := some c2Wd, farmerId := none, location := none,
    qualityGrade := none, moistureContent := none }

/-- Witness for C2 at the concrete request against an empty mirror. -/
theorem addWaste_ledger_error_fallback_witness :
    (WasteCtrl.addWaste [] c2Req "W1" "t1" true (.error "down")).1.status = 201
    ∧ (WasteCtrl.addWaste [] c2Req "W1" "t1" true (.error "down")).1.success = true
    ∧ (WasteCtrl.addWaste [] c2Req "W1" "t1" true (.error "down")).1.source =
        some "fallback"
    ∧ (WasteCtrl.addWaste [] c2Req "W1" "t1" true (.error "down")).2 =
        [] ++ [WasteCtrl.mkBlockchainWasteData c2Req c2Wd "Branches" "50"
          "2025-06-01" "READY" "W1" "t1"]
    ∧ (WasteCtrl.listWaste
        (WasteCtrl.addWaste [] c2Req "W1" "t1" true (.error "down")).2
        true (.ok []) "t2").source = "temporary"
    ∧ WasteCtrl.mkBlockchainWasteData c2Req c2Wd "Branches" "50" "2025-06-01"
        "READY" "W1" "t1" ∈
      (WasteCtrl.listWaste
        (WasteCtrl.addWaste [] c2Req "W1" "t1" true (.error "down")).2
        true (.ok []) "t2").data
    ∧ (WasteCtrl.listWaste
        (WasteCtrl.addWaste [] c2Req "W1" "t1" true (.error "down")).2
        true (.error "down2") "t2").source = "fallback"
    ∧ WasteCtrl.mkBlockchainWasteData c2Req c2Wd "Branches" "50" "2025-06-01"
        "READY" "W1" "t1" ∈
      (WasteCtrl.listWaste
        (WasteCtrl.addWaste [] c2Req "W1" "t1" true (.error "down")).2
        true (.error "down2") "t2").data := by
  have h := addWaste_ledger_error_fallback [] c2Req c2Wd "Branches" "50"
    "2025-06-01" "READY" "W1" "t1" "down" rfl rfl rfl rfl rfl
  exact ⟨h.1, h.2.1, h.2.2.1, h.2.2.2.2.1,
    (h.2.2.2.2.2.1 "t2").1, (h.2.2.2.2.2.1 "t2").2,
    (h.2.2.2.2.2.2 "t2" "down2").1, (h.2.2.2.2.2.2 "t2" "down2").2⟩

/-- C5 (amended): when the client is initialized and the ledger call
succeeds with an empty or not-found result, the list read serves the
mirror labeled temporary; the by-waste query serves an empty list
labeled temporary without consulting the mirror; and the by-id query
falls back to the mirror but labels a mirror hit fallback. -/
theorem empty_ledger_read_policy :
    (∀ (st : List WasteCtrl.MirrorWaste) (nowIso : String),
      (WasteCtrl.listWaste st true (.ok []) nowIso).data = st
      ∧ (WasteCtrl.listWaste st true (.ok []) nowIso).source = "temporary")
    ∧ (∀ (st : List ExtractionCtrl.MirrorExtraction) (wid nowIso : String),
        (wid == "") = false →
        (ExtractionCtrl.getExtractionsByWasteId st wid true (.ok [])
          nowIso).data = []
        ∧ (ExtractionCtrl.getExtractionsByWasteId st wid true (.ok [])
            nowIso).source = some "temporary")
    ∧ (∀ (st : List ExtractionCtrl.MirrorExtraction) (eid : String)
        (e : ExtractionCtrl.MirrorExtraction),
        (eid == "") = false →
        st.find? (fun x => x.id == eid || x.extractionId == eid) = some e →
        (ExtractionCtrl.getExtractionById st eid true (.ok none)).data = some e
        ∧ (ExtractionCtrl.getExtractionById st eid true (.ok none)).source =
            some "fallback") := by
  refine ⟨?_, ?_, ?_⟩
  · intro st nowIso
    exact ⟨rfl, rfl⟩
  · intro st wid nowIso hwid
    unfold ExtractionCtrl.getExtractionsByWasteId
    rw [hwid]
    exact ⟨rfl, rfl⟩
  · intro st eid e heid hfind
    unfold ExtractionCtrl.getExtractionById
    rw [heid, hfind]
    exact ⟨rfl, rfl⟩

/-- Witness for C5: the three read paths at concrete mirrors. -/
theorem empty_ledger_read_policy_witness :
    ((WasteCtrl.listWaste [] true (.ok []) "t1").data = []
     ∧ (WasteCtrl.listWaste [] true (.ok []) "t1").source = "temporary")
    ∧ ((ExtractionCtrl.getExtractionsByWasteId
          [ExtractionCtrl.defaultExtraction "t0"] "WASTE_DEFAULT_1" true
          (.ok []) "t1").data = []
       ∧ (ExtractionCtrl.getExtractionsByWasteId
            [ExtractionCtrl.defaultExtraction "t0"] "WASTE_DEFAULT_1" true
            (.ok []) "t1").source = some "temporary")
    ∧ ((ExtractionCtrl.getExtractionById
          [ExtractionCtrl.defaultExtraction "t0"] "EXTRACTION_DEFAULT_1" true
          (.ok none)).data = some (ExtractionCtrl.defaultExtraction "t0")
       ∧ (ExtractionCtrl.getExtractionById
            [ExtractionCtrl.defaultExtraction "t0"] "EXTRACTION_DEFAULT_1"
            true (.ok none)).source = some "fallback") :=
  ⟨empty_ledger_read_policy.1 [] "t1",
   empty_ledger_read_policy.2.1 [ExtractionCtrl.defaultExtraction "t0"]
     "WASTE_DEFAULT_1" "t1" (by rfl),
   empty_ledger_read_policy.2.2 [ExtractionCtrl.defaultExtraction "t0"]
     "EXTRACTION_DEFAULT_1" (ExtractionCtrl.defaultExtraction "t0") (by rfl)
     (by rfl)⟩

/-- Counterexample for C5 as stated: with the default extraction in the
mirror, a by-waste query for its waste id under an isInit client
and an empty ledger result is labeled temporary but returns the empty
list, not the data the mirror holds for that query. -/
theorem byWaste_empty_result_not_mirror_data :
    (ExtractionCtrl.getExtractionsByWasteId
      [ExtractionCtrl.defaultExtraction "t0"] "WASTE_DEFAULT_1" true (.ok [])
      "t1").source = some "temporary"
    ∧ ([ExtractionCtrl.defaultExtraction "t0"].filter
        (fun e => e.wasteId == "WASTE_DEFAULT_1")) =
      [ExtractionCtrl.defaultExtraction "t0"]
    ∧ (ExtractionCtrl.getExtractionsByWasteId
        [ExtractionCtrl.defaultExtraction "t0"] "WASTE_DEFAULT_1" true
        (.ok []) "t1").data = []
    ∧ (ExtractionCtrl.getExtractionsByWasteId
        [ExtractionCtrl.defaultExtraction "t0"] "WASTE_DEFAULT_1" true
        (.ok []) "t1").data ≠
      [ExtractionCtrl.defaultExtraction "t0"].filter
        (fun e => e.wasteId == "WASTE_DEFAULT_1") := by
  refine ⟨by rfl, by rfl, by rfl, ?_⟩
  intro h
  rw [show (ExtractionCtrl.getExtractionsByWasteId
    [ExtractionCtrl.defaultExtraction "t0"] "WASTE_DEFAULT_1" true (.ok [])
    "t1").data = [] from rfl] at h
  rw [show ([ExtractionCtrl.defaultExtraction "t0"].filter
    (fun e => e.wasteId == "WASTE_DEFAULT_1")) =
    [ExtractionCtrl.defaultExtraction "t0"] from rfl] at h
  exact List.noConfusion h

/-- addWaste composed with the submitTransaction of the exported mock
client class, as the controller wires them together. -/
def addWasteWithMockClient (st : List WasteCtrl.MirrorWaste)
    (req : WasteCtrl.AddWasteReq) (wasteId nowIso payload : String)
    (nowMs : Nat) (mockIso : String) :
    WasteCtrl.AddWasteRes × List WasteCtrl.MirrorWaste :=
  WasteCtrl.addWaste st req wasteId nowIso true
    (Mock.submitTransaction "farmer" "CreateWaste" [wasteId, payload] nowMs
      mockIso)

/-- C10: submitTransaction of the exported mock client class always resolves
(never throws) and every query resolves to an empty list or null;
consequently, with the client isInit, a validated create request
always takes the ledger-success branch: its source is blockchain and
never fallback. -/
theorem mock_client_never_fallback :
    (∀ (org fn : String) (args : List String) (ms : Nat) (iso : String),
      ∃ tx, Mock.submitTransaction org fn args ms iso = .ok tx)
    ∧ (∀ (org fn : String) (args : List String),
        Mock.query org fn args = .ok .emptyList
        ∨ Mock.query org fn args = .ok .nullRes)
    ∧ (∀ (org fn : String) (args : List String),
        Mock.queryAll org fn args = Mock.query org fn args)
    ∧ (∀ (st : List WasteCtrl.MirrorWaste) (req : WasteCtrl.AddWasteReq)
        (wasteId nowIso payload : String) (nowMs : Nat) (mockIso : String)
        (wd : WasteCtrl.WasteData) (t q hd s : String),
        req.wasteData = some wd → wd.type2 = some t → wd.quantity = some q →
        wd.harvestDate = some hd → wd.status = some s →
        (addWasteWithMockClient st req wasteId nowIso payload nowMs
          mockIso).1.source = some "blockchain"
        ∧ (addWasteWithMockClient st req wasteId nowIso payload nowMs
            mockIso).1.source ≠ some "fallback") := by
  have hgen : ∀ r : Mock.QueryRes,
      (Except.ok r : Except String Mock.QueryRes) = .ok .emptyList
      ∨ (Except.ok r : Except String Mock.QueryRes) = .ok .nullRes := by
    intro r
    cases r with
    | emptyList => exact Or.inl rfl
    | nullRes => exact Or.inr rfl
  refine ⟨?_, ?_, ?_, ?_⟩
  · intro org fn args ms iso
    exact ⟨_, rfl⟩
  · intro org fn args
    exact hgen _
  · intro org fn args
    rfl
  · intro st req wasteId nowIso payload nowMs mockIso wd t q hd s hwd ht hq hh hs
    have hsrc : (addWasteWithMockClient st req wasteId nowIso payload nowMs
        mockIso).1.source = some "blockchain" := by
      simp only [addWasteWithMockClient, Mock.submitTransaction,
        WasteCtrl.addWaste, hwd, ht, hq, hh, hs, if_true]
    refine ⟨hsrc, ?_⟩
    rw [hsrc]
    intro h
    exact absurd (Option.some.inj h) (by decide)

/-- Witness for C10 at a concrete validated request. -/
theorem mock_client_never_fallback_witness :
    (∃ tx, Mock.submitTransaction "farmer" "CreateWaste" ["W1", "payload"] 42
      "t0" = .ok tx)
    ∧ (Mock.query "farmer" "GetAllWastes" [] = .ok .emptyList
       ∨ Mock.query "farmer" "GetAllWastes" [] = .ok .nullRes)
    ∧ Mock.queryAll "farmer" "GetAllWastes" [] =
        Mock.query "farmer" "GetAllWastes" []
    ∧ ((addWasteWithMockClient [] c2Req "W1" "t1" "payload" 42 "t0").1.source =
        some "blockchain"
       ∧ (addWasteWithMockClient [] c2Req "W1" "t1" "payload" 42
           "t0").1.source ≠ some "fallback") :=
  ⟨mock_client_never_fallback.1 "farmer" "CreateWaste" ["W1", "payload"] 42 "t0",
   mock_client_never_fallback.2.1 "farmer" "GetAllWastes" [],
   mock_client_never_fallback.2.2.1 "farmer" "GetAllWastes" [],
   mock_client_never_fallback.2.2.2 [] c2Req "W1" "t1" "payload" 42 "t0" c2Wd
     "Branches" "50" "2025-06-01" "READY" rfl rfl rfl rfl rfl⟩
